import Mathlib

/-!
Verification of `scripts/meetings_fetch.py` against its specification.

Shallow embedding: pure helpers of the script become Lean functions; the
HTTP layer and the browser storage are passed in explicitly (a response
oracle, a list of storage entries).  Python strings are Lean `String`s,
Python `dict`s parsed from JSON are modelled by the `JVal` type below.
-/

set_option autoImplicit false

namespace MeetingsFetch

/-- The pattern list is a prefix of the other list. -/
def startsWithL : List Char → List Char → Bool
  | [], _ => true
  | _ :: _, [] => false
  | p :: ps, c :: cs => p = c && startsWithL ps cs

/-- The pattern occurs as a contiguous sublist. -/
def containsSub (pat : List Char) : List Char → Bool
  | [] => pat.isEmpty
  | c :: cs => startsWithL pat (c :: cs) || containsSub pat cs

/-- Python `pat in s` (substring test). -/
def strContains (s pat : String) : Bool := containsSub pat.toList s.toList

/-- ASCII lowercase of one character (Python `str.lower()`; the labels this
program lowercases are ASCII). -/
def charLower (c : Char) : Char :=
  if 'A' ≤ c ∧ c ≤ 'Z' then Char.ofNat (c.toNat + 32) else c

/-- Python `s.lower()`. -/
def toLowerStr (s : String) : String := String.mk (s.toList.map charLower)

/-- Python `value.split(sep)` (split on every occurrence) over character
lists; `splitChar sep [] = [[]]` just as `"".split(sep) == [""]`. -/
def splitChar (sep : Char) : List Char → List (List Char)
  | [] => [[]]
  | c :: cs =>
    let r := splitChar sep cs
    if c = sep then [] :: r
    else
      match r with
      | h :: t => (c :: h) :: t
      | [] => [[c]]

/-- Python `a or b` on optional strings: the empty string is falsy. -/
def pyOrStr : Option String → Option String → Option String
  | some s, b => if s = "" then b else some s
  | none, b => b

/-- Split a character list at the first occurrence of `sep`
(Python `value.split(sep, 1)` when `sep` occurs; `none` when it does not). -/
def splitFirst (sep : Char) : List Char → Option (List Char × List Char)
  | [] => none
  | c :: cs =>
    if c = sep then some ([], cs)
    else
      match splitFirst sep cs with
      | some (a, b) => some (c :: a, b)
      | none => none

/-- `looks_like_jwt` (meetings_fetch.py:257-261): the value splits on "." into
exactly three parts, each longer than 10 characters. -/
def looks_like_jwt (value : String) : Bool :=
  let parts := splitChar '.' value.toList
  parts.length == 3 && parts.all (fun part => part.length > 10)

/-- JSON values, as produced by `json.loads`. -/
inductive JVal where
  | str : String → JVal
  | num : Int → JVal
  | bool : Bool → JVal
  | null : JVal
  | arr : List JVal → JVal
  | obj : List (String × JVal) → JVal

/-- Python `data.get(key)` on a dict (dict keys are unique, so first match). -/
def jget (fields : List (String × JVal)) (k : String) : Option JVal :=
  match fields with
  | [] => none
  | (k2, v) :: rest => if k2 = k then some v else jget rest k

/-- Python truthiness of a JSON value. -/
def truthy : JVal → Bool
  | .str s => s != ""
  | .num n => n != 0
  | .bool b => b
  | .null => false
  | .arr l => !l.isEmpty
  | .obj l => !l.isEmpty

/-- Python `data.get("credentialType") == "AccessToken"`. -/
def isAccessTokenTag (v : JVal) : Bool :=
  match v with
  | .obj fields =>
    match jget fields "credentialType" with
    | some (.str s) => s = "AccessToken"
    | _ => false
  | _ => false

/-- One step of the key probe in `extract_token_from_object`
(meetings_fetch.py:265-268): `data.get(key)` must be a string that looks
like a JWT. -/
def keyJwt (fields : List (String × JVal)) (k : String) : Option String :=
  match jget fields k with
  | some (.str s) => if looks_like_jwt s then some s else none
  | _ => none

mutual

/-- `extract_token_from_object` (meetings_fetch.py:264-274): probe the keys
"secret", "accessToken", "access_token" for a JWT-shaped string, then
recursively scan nested dict values. -/
def extract_token_from_object (data : JVal) : Option String :=
  match data with
  | .obj fields =>
    match keyJwt fields "secret" with
    | some t => some t
    | none =>
      match keyJwt fields "accessToken" with
      | some t => some t
      | none =>
        match keyJwt fields "access_token" with
        | some t => some t
        | none => valuesScan fields
  | _ => none

/-- The `for value in data.values()` loop of `extract_token_from_object`
(meetings_fetch.py:269-273); `if token:` treats the empty string as falsy. -/
def valuesScan (fields : List (String × JVal)) : Option String :=
  match fields with
  | [] => none
  | (_, v) :: rest =>
    match v with
    | .obj g =>
      match extract_token_from_object (.obj g) with
      | some t => if t = "" then valuesScan rest else some t
      | none => valuesScan rest
    | _ => valuesScan rest

end

/-- The tagged-entry collection done for one parsed storage entry
(meetings_fetch.py:296-302): the dict itself if tagged as an AccessToken,
else each of its immediate dict values that is so tagged. -/
def entryTagged (data : JVal) : List JVal :=
  match data with
  | .obj fields =>
    if isAccessTokenTag (.obj fields) then [.obj fields]
    else
      fields.filterMap (fun p =>
        match p.2 with
        | .obj g => if isAccessTokenTag (.obj g) then some (.obj g) else none
        | _ => none)
  | _ => []

/-- A client-side storage entry value: either a string `json.loads` rejects,
or the parsed JSON value.  The storage key is irrelevant (the source ignores
it), so it is not modelled. -/
inductive RawEntry where
  | unparsable (s : String)
  | parsed (v : JVal)

/-- The main `for _key, raw in entries` loop of `extract_access_token`
(meetings_fetch.py:287-305).  Returns a short-circuited token (left
component) and the accumulated tagged entries (right component). -/
def processLoop : List RawEntry → List JVal → Option String × List JVal
  | [], acc => (none, acc)
  | .unparsable s :: rest, acc =>
    if s = "" then processLoop rest acc
    else if looks_like_jwt s then (some s, acc)
    else processLoop rest acc
  | .parsed v :: rest, acc =>
    match v with
    | .obj g =>
      let acc2 := acc ++ entryTagged (.obj g)
      match extract_token_from_object (.obj g) with
      | some t => if t = "" then processLoop rest acc2 else (some t, acc2)
      | none => processLoop rest acc2
    | _ => processLoop rest acc

/-- The exception `extract_access_token` can raise past its own handler:
`(token.get("target") or "").lower()` (meetings_fetch.py:307) raises
AttributeError when the target value is truthy but not a string, and no
enclosing handler catches it (the function's `try` only wraps the storage
read). -/
inductive PyExc where
  | attributeError
deriving DecidableEq, Repr

/-- Python `(token.get("target") or "")` for a collected tagged entry: a
missing or falsy target yields "", a string target yields itself, and a
truthy non-string target makes the subsequent `.lower()` raise (`none`). -/
def tokenTarget (v : JVal) : Option String :=
  match v with
  | .obj fields =>
    match jget fields "target" with
    | none => some ""
    | some (.str s) => some s
    | some t => if truthy t then none else some ""
  | _ => some ""

/-- The collected tagged entry's target does not make line 307 raise. -/
def targetOk (v : JVal) : Bool := (tokenTarget v).isSome

/-- Python `token.get("secret")` for a collected tagged entry. -/
def tokenSecret (v : JVal) : Option JVal :=
  match v with
  | .obj fields => jget fields "secret"
  | _ => none

/-- First fallback pass of `extract_access_token` (meetings_fetch.py:306-311):
among tagged entries, return the first truthy secret whose lowercased target
contains "graph.microsoft.com".  The target lowering runs before the host
test, so a truthy non-string target raises immediately. -/
def hostPass : List JVal → Except PyExc (Option JVal)
  | [] => .ok none
  | v :: rest =>
    match tokenTarget v with
    | none => .error .attributeError
    | some tgt =>
      if strContains (toLowerStr tgt) "graph.microsoft.com" then
        match tokenSecret v with
        | some s => if truthy s then .ok (some s) else hostPass rest
        | none => hostPass rest
      else hostPass rest

/-- Second fallback pass of `extract_access_token` (meetings_fetch.py:312-315):
the first truthy secret of any tagged entry. -/
def secretPass : List JVal → Option JVal
  | [] => none
  | v :: rest =>
    match tokenSecret v with
    | some s => if truthy s then some s else secretPass rest
    | none => secretPass rest

/-- The two fallback passes over the collected tagged entries
(meetings_fetch.py:306-315): the host-preferring pass, then, if it returned
normally without a hit, the any-secret pass. -/
def passResult (tokens : List JVal) : Except PyExc (Option JVal) :=
  match hostPass tokens with
  | .error e => .error e
  | .ok (some v) => .ok (some v)
  | .ok none => .ok (secretPass tokens)

/-- `extract_access_token` (meetings_fetch.py:277-316), over the list of
storage entries read from the session (local plus session storage, in
enumeration order).  `.ok` is a normal return (`some` a credential, `none`
Python's `None`); `.error` is the uncaught AttributeError of line 307. -/
def extract_access_token (entries : List RawEntry) :
    Except PyExc (Option JVal) :=
  match processLoop entries [] with
  | (some t, _) => .ok (some (.str t))
  | (none, tokens) => passResult tokens

mutual

/-- Any string inside the JSON value (itself, a field value, or an array
element) is JWT-shaped. -/
def jvalHasJwt : JVal → Bool
  | .str s => looks_like_jwt s
  | .obj fields => fieldsHasJwt fields
  | .arr vs => arrHasJwt vs
  | .num _ => false
  | .bool _ => false
  | .null => false

def fieldsHasJwt : List (String × JVal) → Bool
  | [] => false
  | (_, v) :: rest => jvalHasJwt v || fieldsHasJwt rest

def arrHasJwt : List JVal → Bool
  | [] => false
  | v :: rest => jvalHasJwt v || arrHasJwt rest

end

/-- A storage entry contains a JWT-shaped string (raw value or nested field). -/
def rawHasJwt : RawEntry → Bool
  | .unparsable s => looks_like_jwt s
  | .parsed v => jvalHasJwt v

/-- Some entry of the snapshot contains a JWT-shaped string. -/
def snapshotHasJwt (entries : List RawEntry) : Bool :=
  entries.any rawHasJwt

/-- A storage entry is inert for the extractor loop: it neither
short-circuits (raw JWT-shaped string, or a hit of the generic
name/shape scan) nor contributes a tagged entry. -/
def inertEntry : RawEntry → Bool
  | .unparsable s => !looks_like_jwt s
  | .parsed v => (entryTagged v).isEmpty && (extract_token_from_object v).isNone

/-! ## Time/Window Resolver (`month_range`, meetings_fetch.py:78-95) -/

/-- A UTC wall-clock datetime (the script builds only timezone-aware UTC
datetimes in `month_range`). -/
structure DT where
  year : Nat
  month : Nat
  day : Nat
  hour : Nat
  minute : Nat
  second : Nat
deriving DecidableEq, Repr

/-- Injective, order-preserving encoding of a (field-valid) datetime; Python
datetime comparison coincides with comparison of these encodings. -/
def DT.enc (d : DT) : Nat :=
  ((((d.year * 13 + d.month) * 32 + d.day) * 24 + d.hour) * 60 + d.minute) * 60
    + d.second

def dtLe (a b : DT) : Bool := a.enc ≤ b.enc

def dtLt (a b : DT) : Bool := a.enc < b.enc

/-- Python `min(a, b)`: returns `b` only when `b < a`. -/
def pyMin (a b : DT) : DT := if dtLt b a then b else a

def isLeapYear (y : Nat) : Bool :=
  y % 4 = 0 && (y % 100 != 0 || y % 400 = 0)

def daysInMonth (y m : Nat) : Nat :=
  if m = 2 then (if isLeapYear y then 29 else 28)
  else if m = 4 || m = 6 || m = 9 || m = 11 then 30
  else 31

/-- `next_month - timedelta(seconds=1)` for the month starting at (y, m)
(meetings_fetch.py:88-92): the last second of that month. -/
def monthLastSecond (y m : Nat) : DT :=
  ⟨y, m, daysInMonth y m, 23, 59, 59⟩

/-- Zero-pad a number to two digits (strftime "%m", "%d", "%H", "%M", "%S"). -/
def pad2 (n : Nat) : String := if n < 10 then "0" ++ toString n else toString n

/-- Zero-pad a number to four digits (strftime "%Y" for years 1-9999). -/
def pad4 (n : Nat) : String :=
  if n < 10 then "000" ++ toString n
  else if n < 100 then "00" ++ toString n
  else if n < 1000 then "0" ++ toString n
  else toString n

/-- `start.strftime("%Y-%m")` (meetings_fetch.py:95). -/
def month_key_of (d : DT) : String := pad4 d.year ++ "-" ++ pad2 d.month

/-- `start.strftime("%Y-%m-%dT%H:%M:%SZ")` (meetings_fetch.py:93-94). -/
def iso_z_of (d : DT) : String :=
  pad4 d.year ++ "-" ++ pad2 d.month ++ "-" ++ pad2 d.day ++ "T"
    ++ pad2 d.hour ++ ":" ++ pad2 d.minute ++ ":" ++ pad2 d.second ++ "Z"

/-- Digit run of Python `int(str)`: a digit, then digits with single
underscores allowed between digits. -/
def pyDigitsGo (acc : Nat) : List Char → Option Nat
  | [] => some acc
  | c :: cs =>
    if c.isDigit then pyDigitsGo (acc * 10 + (c.toNat - 48)) cs
    else if c = '_' then
      match cs with
      | d :: cs2 =>
        if d.isDigit then pyDigitsGo (acc * 10 + (d.toNat - 48)) cs2 else none
      | [] => none
    else none

def pyDigits : List Char → Option Nat
  | [] => none
  | c :: cs => if c.isDigit then pyDigitsGo (c.toNat - 48) cs else none

/-- Python `int(s)` on a string: optional surrounding whitespace, optional
sign, then an ASCII digit run (single underscores allowed between digits).
Unicode digits and non-ASCII whitespace, which Python also accepts, are not
modelled; no claim exercises them. -/
def pyIntParse (s : String) : Option Int :=
  let cs := ((s.toList.dropWhile Char.isWhitespace).reverse.dropWhile
    Char.isWhitespace).reverse
  match cs with
  | '+' :: rest => (pyDigits rest).map (fun n => (n : Int))
  | '-' :: rest => (pyDigits rest).map (fun n => -(n : Int))
  | rest => (pyDigits rest).map (fun n => (n : Int))

inductive MonthError where
  | invalidMonthFormat
  | yearOutOfRange
deriving DecidableEq, Repr

/-- Parse stage of `month_range` (meetings_fetch.py:80-87): split the
specifier on "-" into exactly two parts, convert both with `int`, and build
`datetime(year, month, 1)`; any `ValueError` (wrong number of parts,
non-numeric part, year outside 1-9999, month outside 1-12) is re-raised as
the invalid-format error.  A falsy (empty) specifier takes the default
branch using the current month. -/
def monthParse (s : String) : Except MonthError DT :=
  match splitChar '-' s.toList with
  | [ys, ms] =>
    match pyIntParse (String.mk ys), pyIntParse (String.mk ms) with
    | some y, some m =>
      if 1 ≤ y ∧ y ≤ 9999 ∧ 1 ≤ m ∧ m ≤ 12 then
        .ok ⟨y.toNat, m.toNat, 1, 0, 0, 0⟩
      else .error .invalidMonthFormat
    | some _, none => .error .invalidMonthFormat
    | none, _ => .error .invalidMonthFormat
  | _ => .error .invalidMonthFormat

def monthStart (month_value : Option String) (now : DT) :
    Except MonthError DT :=
  match month_value with
  | some s =>
    if s = "" then .ok ⟨now.year, now.month, 1, 0, 0, 0⟩
    else monthParse s
  | none => .ok ⟨now.year, now.month, 1, 0, 0, 0⟩

/-- `month_range` (meetings_fetch.py:78-95).  Returns the window start, the
window end (`min(now, next_month - timedelta(seconds=1))`) and the month
key.  The source formats start and end with `strftime("%Y-%m-%dT%H:%M:%SZ")`
(see `iso_z_of`), an order-preserving injection on these datetimes; the
model returns the datetimes themselves.  For a December 9999 start the
source's `datetime(start.year + 1, 1, 1)` raises an uncaught `ValueError`
outside the `try` block, modelled by the distinct `yearOutOfRange` error. -/
def month_range (month_value : Option String) (now : DT) :
    Except MonthError (DT × DT × String) :=
  match monthStart month_value now with
  | .error e => .error e
  | .ok start =>
    if start.year = 9999 ∧ start.month = 12 then .error .yearOutOfRange
    else
      let lastSec := monthLastSecond start.year start.month
      .ok (start, pyMin now lastSec, month_key_of start)

/-- Formalisation of the spec's "YYYY-MM" format (four digits, a dash, two
digits); stated from the spec's words, for comparison with what
`month_range` accepts. -/
def spec_matches_yyyy_mm (s : String) : Bool :=
  match s.toList with
  | [a, b, c, d, sep, e, f] =>
    a.isDigit && b.isDigit && c.isDigit && d.isDigit && sep = '-'
      && e.isDigit && f.isDigit
  | _ => false

/-! ## Timezone resolution and event-time parsing
(meetings_fetch.py:153-201) -/

/-- A timezone handle.  `utc` has offset 0.  A `named` region zone (e.g.
"Asia/Jerusalem") carries the minutes-east offset the external tz database
would assign; no claim converts through a named zone, so the representative
offsets below are never load-bearing. -/
inductive Tz where
  | utc
  | named (name : String) (minutesEast : Int)
deriving DecidableEq, Repr

def Tz.minuteOffset : Tz → Int
  | .utc => 0
  | .named _ o => o

/-- Modelled from the external pytz database, restricted to the zones this
program references (the IANA targets of `WINDOWS_TZ_MAP`, plus "UTC"), with
their standard offsets in minutes east of UTC. -/
def IANA_ZONES : List (String × Int) :=
  [("UTC", 0), ("Asia/Jerusalem", 120), ("Europe/London", 0),
   ("Europe/Bucharest", 120), ("America/New_York", -300),
   ("Europe/Budapest", 60), ("Europe/Berlin", 60),
   ("America/Los_Angeles", -480)]

/-- `pytz.timezone(label)`: raises (here `none`) for an unknown zone. -/
def pytzLookup (label : String) : Option Tz :=
  match IANA_ZONES.lookup label with
  | some o => some (if label = "UTC" then Tz.utc else Tz.named label o)
  | none => none

/-- `WINDOWS_TZ_MAP` (meetings_fetch.py:26-35). -/
def WINDOWS_TZ_MAP : List (String × String) :=
  [("Israel Standard Time", "Asia/Jerusalem"), ("UTC", "UTC"),
   ("GMT Standard Time", "Europe/London"),
   ("E. Europe Standard Time", "Europe/Bucharest"),
   ("Eastern Standard Time", "America/New_York"),
   ("Central Europe Standard Time", "Europe/Budapest"),
   ("W. Europe Standard Time", "Europe/Berlin"),
   ("Pacific Standard Time", "America/Los_Angeles")]

/-- `resolve_timezone` (meetings_fetch.py:171-184): for a truthy label, try a
direct IANA lookup when the label contains "/", then the Windows-name map;
fall back to the default on any failure. -/
def resolve_timezone (label : Option String) (default_tz : Tz) : Tz :=
  match label with
  | none => default_tz
  | some l =>
    if l = "" then default_tz
    else
      match (if strContains l "/" then pytzLookup l else none) with
      | some tz => tz
      | none =>
        match WINDOWS_TZ_MAP.lookup l with
        | some mapped =>
          match pytzLookup mapped with
          | some tz => tz
          | none => default_tz
        | none => default_tz

/-- Lines 154-155 of `normalize_iso_datetime`: replace a trailing "Z" with
"+00:00". -/
def zCanon (cs : List Char) : List Char :=
  match cs.getLast? with
  | some c => if c = 'Z' then cs.dropLast ++ "+00:00".toList else cs
  | none => cs

/-- Lines 159-166 of `normalize_iso_datetime`: split the part after the
first "." at the first "+" (else the first "-") into the fractional digits
and the offset. -/
def fracSplit (rest : List Char) : List Char × List Char :=
  match splitFirst '+' rest with
  | some (f, o) => (f, '+' :: o)
  | none =>
    match splitFirst '-' rest with
    | some (f, o) => (f, '-' :: o)
    | none => (rest, [])

/-- `normalize_iso_datetime` (meetings_fetch.py:153-168) over character
lists: canonicalize a trailing "Z", and if a "." occurs, truncate/zero-pad
the fractional part to exactly six digits. -/
def normalizeChars (cs0 : List Char) : List Char :=
  match splitFirst '.' (zCanon cs0) with
  | none => zCanon cs0
  | some (base, rest) =>
    base ++ '.' :: (((fracSplit rest).1 ++ "000000".toList).take 6
      ++ (fracSplit rest).2)

/-- `normalize_iso_datetime` (meetings_fetch.py:153-168). -/
def normalize_iso_datetime (value : String) : String :=
  String.mk (normalizeChars value.toList)

/-- Result of `datetime.fromisoformat`: wall-clock fields, microseconds, and
the parsed offset in minutes (`none` for a naive datetime). -/
structure ParsedDT where
  dt : DT
  micro : Nat
  offsetMin : Option Int
deriving DecidableEq, Repr

def dv (c : Char) : Nat := c.toNat - 48

/-- Offset / fractional tail of an ISO time: "", ".ffffff", "±HH:MM", or
".ffffff±HH:MM" (exactly six fractional digits, as produced by
`normalize_iso_datetime`; Python also accepts other widths, unused here). -/
def isoTail : List Char → Option (Nat × Option Int)
  | [] => some (0, none)
  | '.' :: f1 :: f2 :: f3 :: f4 :: f5 :: f6 :: rest =>
    if f1.isDigit && f2.isDigit && f3.isDigit && f4.isDigit && f5.isDigit
        && f6.isDigit then
      let micro := ((((dv f1 * 10 + dv f2) * 10 + dv f3) * 10 + dv f4) * 10
        + dv f5) * 10 + dv f6
      match rest with
      | [] => some (micro, none)
      | sign :: o1 :: o2 :: ':' :: o3 :: o4 :: [] =>
        if (sign = '+' || sign = '-') && o1.isDigit && o2.isDigit
            && o3.isDigit && o4.isDigit then
          let hh := dv o1 * 10 + dv o2
          let mm := dv o3 * 10 + dv o4
          if hh < 24 && mm < 60 then
            let off : Int := (hh * 60 + mm : Nat)
            some (micro, some (if sign = '-' then -off else off))
          else none
        else none
      | _ => none
    else none
  | sign :: o1 :: o2 :: ':' :: o3 :: o4 :: [] =>
    if (sign = '+' || sign = '-') && o1.isDigit && o2.isDigit && o3.isDigit
        && o4.isDigit then
      let hh := dv o1 * 10 + dv o2
      let mm := dv o3 * 10 + dv o4
      if hh < 24 && mm < 60 then
        let off : Int := (hh * 60 + mm : Nat)
        some (0, some (if sign = '-' then -off else off))
      else none
    else none
  | _ => none

/-- Time-of-day part "HH:MM:SS" plus tail. -/
def isoTime : List Char → Option (Nat × Nat × Nat × Nat × Option Int)
  | h1 :: h2 :: ':' :: m1 :: m2 :: ':' :: s1 :: s2 :: rest =>
    if h1.isDigit && h2.isDigit && m1.isDigit && m2.isDigit && s1.isDigit
        && s2.isDigit then
      let hh := dv h1 * 10 + dv h2
      let mi := dv m1 * 10 + dv m2
      let ss := dv s1 * 10 + dv s2
      if hh < 24 && mi < 60 && ss < 60 then
        match isoTail rest with
        | some (micro, off) => some (hh, mi, ss, micro, off)
        | none => none
      else none
    else none
  | _ => none

/-- Models `datetime.fromisoformat` on the grammar this program feeds it
after `normalize_iso_datetime`: "YYYY-MM-DD", optionally followed by a
separator character and "HH:MM:SS", an optional six-digit fraction and an
optional "±HH:MM" offset, with field validation.  Inputs Python would also
accept but this program never produces (date-only variants with other field
widths, offsets with seconds, ...) are rejected. -/
def fromisoformat (s : String) : Option ParsedDT :=
  match s.toList with
  | y1 :: y2 :: y3 :: y4 :: '-' :: m1 :: m2 :: '-' :: d1 :: d2 :: rest =>
    if y1.isDigit && y2.isDigit && y3.isDigit && y4.isDigit && m1.isDigit
        && m2.isDigit && d1.isDigit && d2.isDigit then
      let y := ((dv y1 * 10 + dv y2) * 10 + dv y3) * 10 + dv y4
      let mo := dv m1 * 10 + dv m2
      let dd := dv d1 * 10 + dv d2
      if 1 ≤ y ∧ 1 ≤ mo ∧ mo ≤ 12 ∧ 1 ≤ dd ∧ dd ≤ daysInMonth y mo then
        match rest with
        | [] => some ⟨⟨y, mo, dd, 0, 0, 0⟩, 0, none⟩
        | _sep :: t =>
          match isoTime t with
          | some (hh, mi, ss, micro, off) =>
            some ⟨⟨y, mo, dd, hh, mi, ss⟩, micro, off⟩
          | none => none
      else none
    else none
  | _ => none

/-- Days from 1970-01-01 to the given proleptic-Gregorian civil date
(valid for year ≥ 1). -/
def daysFromCivil (y m d : Nat) : Int :=
  let y2 := if m ≤ 2 then y - 1 else y
  let era := y2 / 400
  let yoe := y2 - era * 400
  let doy := (153 * ((m + 9) % 12) + 2) / 5 + d - 1
  let doe := yoe * 365 + yoe / 4 - yoe / 100 + doy
  (era * 146097 + doe : Int) - 719468

/-- The instant (microseconds since the Unix epoch) of a wall-clock datetime
with the given microseconds and minutes-east offset. -/
def toInstant (dt : DT) (micro : Nat) (offsetMin : Int) : Int :=
  (daysFromCivil dt.year dt.month dt.day * 86400
    + ((dt.hour * 3600 + dt.minute * 60 + dt.second : Nat) : Int)
    - offsetMin * 60) * 1000000 + (micro : Int)

/-- A Graph event time part `{dateTime, timeZone}`.  A missing or empty
(falsy) part dict is `none`. -/
structure TimePart where
  dateTime : Option String
  timeZone : Option String
deriving DecidableEq, Repr

/-- `parse_event_time` (meetings_fetch.py:187-201).  The source returns a
datetime converted to `output_tz` via `astimezone`, which preserves the
instant; the model returns that instant (microseconds since the epoch).
A naive parsed value is localized with `resolve_timezone` on the source
label (pytz `localize` attaches the zone's offset). -/
def parse_event_time (part : Option TimePart) (output_tz : Tz) : Option Int :=
  match part with
  | none => none
  | some p =>
    match p.dateTime with
    | none => none
    | some raw =>
      if raw = "" then none
      else
        match fromisoformat (normalize_iso_datetime raw) with
        | none => none
        | some pd =>
          match pd.offsetMin with
          | some off => some (toInstant pd.dt pd.micro off)
          | none =>
            let source_tz := resolve_timezone p.timeZone output_tz
            some (toInstant pd.dt pd.micro source_tz.minuteOffset)

/-! ## Attendance Enricher (`fetch_attendance`, meetings_fetch.py:204-254) -/

def squote : Char := Char.ofNat 39

/-- `escape_odata_string` (meetings_fetch.py:149-150),
`value.replace("'", "''")`: double every single-quote character. -/
def escape_odata_string (value : String) : String :=
  String.mk (value.toList.flatMap
    (fun c => if c = squote then [squote, squote] else [c]))

/-- Lexicographic (code-point) comparison of character lists, the order
Python uses to compare strings. -/
def charListLe : List Char → List Char → Bool
  | [], _ => true
  | _ :: _, [] => false
  | a :: as2, b :: bs => if a = b then charListLe as2 bs else decide (a < b)

def strLe (a b : String) : Bool := charListLe a.toList b.toList

/-- The ordering relation of Python `sorted` on strings. -/
def strLeRel (a b : String) : Prop := strLe a b = true

instance : DecidableRel strLeRel := fun a b => instDecidableEqBool _ _

/-- Drop duplicates, keeping the last occurrence of each element (the
surviving occurrences are irrelevant once sorted: Python builds a `set`). -/
def dedupL : List String → List String
  | [] => []
  | x :: xs => if x ∈ xs then dedupL xs else x :: dedupL xs

/-- An HTTP JSON response carrying a list under the "value" key. -/
structure HttpListResp (α : Type) where
  status : Nat
  value : List α
deriving DecidableEq, Repr

/-- An element of the online-meetings lookup response. -/
structure MeetingRes where
  id : Option String
deriving DecidableEq, Repr

/-- An element of the attendance-reports list response. -/
structure AttReport where
  id : Option String
  createdDateTime : Option String
deriving DecidableEq, Repr

structure RecUser where
  email : Option String
deriving DecidableEq, Repr

structure RecIdentity where
  user : Option RecUser
deriving DecidableEq, Repr

/-- An element of the attendance-records list response. -/
structure AttRecord where
  identity : Option RecIdentity
deriving DecidableEq, Repr

/-- The three Graph endpoints `fetch_attendance` calls, as response oracles:
meetings filtered by (escaped) join URL, reports by meeting id, records by
meeting id and report id. -/
structure AttendanceNet where
  onlineMeetings : String → HttpListResp MeetingRes
  attendanceReports : String → HttpListResp AttReport
  attendanceRecords : String → String → HttpListResp AttRecord

/-- `record.get("identity") or {}`, `.get("user") or {}`, `.get("email")`
(meetings_fetch.py:246-248). -/
def recordEmail (record : AttRecord) : Option String :=
  match record.identity with
  | none => none
  | some i =>
    match i.user with
    | none => none
    | some u => u.email

/-- The email-collection loop (meetings_fetch.py:244-250): keep truthy
emails only. -/
def collectEmails (records : List AttRecord) : List String :=
  records.filterMap (fun record =>
    match recordEmail record with
    | some e => if e = "" then none else some e
    | none => none)

/-- Python `sorted(emails)` on the set of collected emails: the
duplicate-free list in increasing lexicographic order. -/
def sortedEmails (records : List AttRecord) : List String :=
  (dedupL (collectEmails records)).insertionSort strLeRel

/-- `report.get("createdDateTime", "")`, the sort key of the reports list
(meetings_fetch.py:232). -/
def reportKey (r : AttReport) : String := r.createdDateTime.getD ""

/-- The ordering `reports.sort(key=...)` uses. -/
def repLeRel (a b : AttReport) : Prop := strLe (reportKey a) (reportKey b) = true

instance : DecidableRel repLeRel := fun a b => instDecidableEqBool _ _

/-- `reports.sort(key=...)` (meetings_fetch.py:232): stable ascending sort
by creation timestamp. -/
def sortReports (rs : List AttReport) : List AttReport :=
  rs.insertionSort repLeRel

/-- Third step of `fetch_attendance` (meetings_fetch.py:236-251): fetch the
attendance records and derive (total record count, sorted unique truthy
emails). -/
def fa_records (net : AttendanceNet) (mid rid : String) :
    Option (Nat × List String) :=
  let recordsResp := net.attendanceRecords mid rid
  if recordsResp.status ≠ 200 then none
  else some (recordsResp.value.length, sortedEmails recordsResp.value)

/-- Second step of `fetch_attendance` (meetings_fetch.py:222-235): list the
attendance reports, pick the one with the latest creation timestamp, and
continue with its id. -/
def fa_report (net : AttendanceNet) (mid : String) :
    Option (Nat × List String) :=
  let reportsResp := net.attendanceReports mid
  if reportsResp.status ≠ 200 then none
  else if reportsResp.value.isEmpty then none
  else
    match (sortReports reportsResp.value).getLast? with
    | none => none
    | some lastReport =>
      match lastReport.id with
      | none => none
      | some rid => if rid = "" then none else fa_records net mid rid

/-- First step of `fetch_attendance` (meetings_fetch.py:208-221): look up
the online meeting by escaped join URL and continue with the first
result's id. -/
def fa_meeting (net : AttendanceNet) (ju : String) :
    Option (Nat × List String) :=
  let resp := net.onlineMeetings (escape_odata_string ju)
  if resp.status ≠ 200 then none
  else
    match resp.value with
    | [] => none
    | m0 :: _ =>
      match m0.id with
      | none => none
      | some mid => if mid = "" then none else fa_report net mid

/-- `fetch_attendance` (meetings_fetch.py:204-254).  Every non-success
status, empty lookup, missing id and empty reports list yields `none`; the
final `except` catches any remaining exception, so the function never
raises.  On success it returns the total record count paired with the
sorted, deduplicated truthy emails. -/
def fetch_attendance (net : AttendanceNet) : Option String →
    Option (Nat × List String)
  | none => none
  | some ju => if ju = "" then none else fa_meeting net ju

/-! ## Event Fetcher (`fetch_events`, meetings_fetch.py:133-146) -/

/-- A page response: HTTP status, the "value" items, and the
"@odata.nextLink" continuation. -/
structure PageResp (α : Type) where
  status : Nat
  value : List α
  nextLink : Option String
deriving DecidableEq, Repr

/-- `fetch_events` (meetings_fetch.py:133-146) over a response oracle `net`.
The `while url:` loop follows continuation links while the url is truthy,
appending each 200-page's items; a non-200 page logs and clears the url,
keeping the items fetched so far.  The source loop can run unboundedly on a
cyclic chain, so the model carries a step budget `fuel`; every claim's chain
terminates within its budget. -/
def fetch_events {α : Type} (fuel : Nat) (net : String → PageResp α) :
    Option String → List α
  | none => []
  | some u =>
    if u = "" then []
    else
      match fuel with
      | 0 => []
      | fuel2 + 1 =>
        let response := net u
        if response.status = 200 then
          response.value ++ fetch_events fuel2 net response.nextLink
        else []

/-! ## Report Assembler (the main loop, meetings_fetch.py:673-737) -/

structure EmailInfo where
  name : Option String
  address : Option String
deriving DecidableEq, Repr

structure Attendee where
  emailAddress : Option EmailInfo
deriving DecidableEq, Repr

structure OnlineMeetingInfo where
  joinUrl : Option String
deriving DecidableEq, Repr

/-- A raw calendar event, with the fields the main loop reads.  `subject`
is `none` when the key is missing (`event.get("subject", "No Subject")`);
`startPart`/`endPart` are `none` when missing or falsy. -/
structure Event where
  subject : Option String
  startPart : Option TimePart
  endPart : Option TimePart
  attendees : List Attendee
  onlineMeetingUrl : Option String
  onlineMeeting : Option OnlineMeetingInfo
deriving DecidableEq, Repr

/-- A normalized meeting record (meetings_fetch.py:699-709).  The source
formats `start_local`/`end_local` with `strftime` into local wall-clock
strings; the model records the instants. -/
structure Meeting where
  subject : String
  startTime : Int
  endTime : Int
  participants : String
  attendanceCount : Option Nat
  attendanceEmails : List String
  attendeeEmails : List String
deriving DecidableEq, Repr

/-- The final report object (meetings_fetch.py:736). -/
structure Report where
  month : String
  count : Nat
  meetings : List Meeting
deriving DecidableEq, Repr

/-- The attendee loop (meetings_fetch.py:680-689): collect truthy names and
truthy addresses in order. -/
def collectAttendees : List Attendee → List String × List String
  | [] => ([], [])
  | a :: rest =>
    let acc := collectAttendees rest
    let info := a.emailAddress
    let names :=
      match info with
      | some i =>
        match i.name with
        | some n => if n = "" then acc.1 else n :: acc.1
        | none => acc.1
      | none => acc.1
    let addrs :=
      match info with
      | some i =>
        match i.address with
        | some ad => if ad = "" then acc.2 else ad :: acc.2
        | none => acc.2
      | none => acc.2
    (names, addrs)

/-- `event.get("onlineMeetingUrl") or (event.get("onlineMeeting") or
{}).get("joinUrl")` (meetings_fetch.py:691). -/
def eventJoinUrl (event : Event) : Option String :=
  pyOrStr event.onlineMeetingUrl
    (match event.onlineMeeting with
     | some om => om.joinUrl
     | none => none)

/-- The meeting dict appended for a retained event
(meetings_fetch.py:696-709), given its parsed start and end instants. -/
def event_meeting (att : Bool) (net : AttendanceNet) (event : Event)
    (start_local end_local : Int) : Meeting :=
  let subject := event.subject.getD "No Subject"
  let collected := collectAttendees event.attendees
  let attendance_info :=
    if att then fetch_attendance net (eventJoinUrl event) else none
  { subject := subject
    startTime := start_local
    endTime := end_local
    participants := String.intercalate ", " collected.1
    attendanceCount := attendance_info.map (fun x => x.1)
    attendanceEmails :=
      match attendance_info with
      | some x => x.2
      | none => []
    attendeeEmails := collected.2 }

/-- The per-event loop of `main` (meetings_fetch.py:675-709): an event whose
start or end fails to parse is skipped (`continue`); every other event
contributes one meeting record, in order. -/
def build_meetings (tz : Tz) (att : Bool) (net : AttendanceNet) :
    List Event → List Meeting
  | [] => []
  | event :: rest =>
    match parse_event_time event.startPart tz,
        parse_event_time event.endPart tz with
    | some start_local, some end_local =>
      event_meeting att net event start_local end_local
        :: build_meetings tz att net rest
    | some _, none => build_meetings tz att net rest
    | none, _ => build_meetings tz att net rest

/-- The output object `{"month": month_key, "count": len(meetings),
"meetings": meetings}` (meetings_fetch.py:736). -/
def assemble_report (month_key : String) (events : List Event) (tz : Tz)
    (att : Bool) (net : AttendanceNet) : Report :=
  let meetings := build_meetings tz att net events
  ⟨month_key, meetings.length, meetings⟩

/-! ## Lemmas about the token extractor -/

/-- The tagged entries collected by the whole storage loop. -/
def taggedOf (entries : List RawEntry) : List JVal :=
  entries.flatMap (fun r =>
    match r with
    | .parsed v => entryTagged v
    | .unparsable _ => [])

/-- A collected tagged entry whose secret field is absent or falsy. -/
def secretFalsy (v : JVal) : Bool :=
  match tokenSecret v with
  | some s => !truthy s
  | none => true

theorem keyJwt_looks (fields : List (String × JVal)) (k t : String)
    (h : keyJwt fields k = some t) :
    jget fields k = some (.str t) ∧ looks_like_jwt t = true := by
  unfold keyJwt at h
  cases hg : jget fields k with
  | none => rw [hg] at h; exact absurd h (by simp)
  | some v =>
    rw [hg] at h
    cases v with
    | str s =>
      replace h : (if looks_like_jwt s then some s else none) = some t := h
      by_cases hl : looks_like_jwt s = true
      · rw [if_pos hl] at h
        injection h with h2
        subst h2
        exact ⟨rfl, hl⟩
      · rw [if_neg hl] at h
        exact absurd h (by simp)
    | num n => exact absurd h (by simp)
    | bool b => exact absurd h (by simp)
    | null => exact absurd h (by simp)
    | arr l => exact absurd h (by simp)
    | obj l => exact absurd h (by simp)

theorem jget_hasJwt (fields : List (String × JVal)) (k : String) (v : JVal)
    (hg : jget fields k = some v) (hv : jvalHasJwt v = true) :
    fieldsHasJwt fields = true := by
  induction fields with
  | nil => simp [jget] at hg
  | cons p rest ih =>
    obtain ⟨k2, w⟩ := p
    unfold jget at hg
    by_cases hk : k2 = k
    · simp [hk] at hg
      subst hg
      simp [fieldsHasJwt, hv]
    · simp [hk] at hg
      simp [fieldsHasJwt, ih hg]

mutual

theorem etfo_hasJwt : ∀ (v : JVal) (t : String),
    extract_token_from_object v = some t → jvalHasJwt v = true
  | .obj fields, t => by
    intro h
    unfold extract_token_from_object at h
    show fieldsHasJwt fields = true
    cases h1 : keyJwt fields "secret" with
    | some s =>
      rw [h1] at h
      obtain ⟨hg, hl⟩ := keyJwt_looks fields "secret" s h1
      exact jget_hasJwt fields "secret" (.str s) hg (by simpa [jvalHasJwt])
    | none =>
      rw [h1] at h
      cases h2 : keyJwt fields "accessToken" with
      | some s =>
        rw [h2] at h
        obtain ⟨hg, hl⟩ := keyJwt_looks fields "accessToken" s h2
        exact jget_hasJwt fields "accessToken" (.str s) hg (by simpa [jvalHasJwt])
      | none =>
        rw [h2] at h
        cases h3 : keyJwt fields "access_token" with
        | some s =>
          rw [h3] at h
          obtain ⟨hg, hl⟩ := keyJwt_looks fields "access_token" s h3
          exact jget_hasJwt fields "access_token" (.str s) hg
            (by simpa [jvalHasJwt])
        | none =>
          rw [h3] at h
          exact valuesScan_hasJwt fields t h
  | .str s, t => by intro h; simp [extract_token_from_object] at h
  | .num n, t => by intro h; simp [extract_token_from_object] at h
  | .bool b, t => by intro h; simp [extract_token_from_object] at h
  | .null, t => by intro h; simp [extract_token_from_object] at h
  | .arr l, t => by intro h; simp [extract_token_from_object] at h

theorem valuesScan_hasJwt : ∀ (fields : List (String × JVal)) (t : String),
    valuesScan fields = some t → fieldsHasJwt fields = true
  | [], t => by intro h; simp [valuesScan] at h
  | (k, v) :: rest, t => by
    intro h
    unfold valuesScan at h
    unfold fieldsHasJwt
    cases v with
    | obj g =>
      replace h : (match extract_token_from_object (.obj g) with
        | some t0 => if t0 = "" then valuesScan rest else some t0
        | none => valuesScan rest) = some t := h
      cases h1 : extract_token_from_object (.obj g) with
      | some t2 =>
        rw [h1] at h
        have := etfo_hasJwt (.obj g) t2 h1
        simp [this]
      | none =>
        rw [h1] at h
        simp [valuesScan_hasJwt rest t h]
    | str s => simp [valuesScan_hasJwt rest t h]
    | num n => simp [valuesScan_hasJwt rest t h]
    | bool b => simp [valuesScan_hasJwt rest t h]
    | null => simp [valuesScan_hasJwt rest t h]
    | arr l => simp [valuesScan_hasJwt rest t h]

end

theorem etfo_none_of_noJwt (v : JVal) (h : jvalHasJwt v = false) :
    extract_token_from_object v = none := by
  cases he : extract_token_from_object v with
  | some t => exact absurd (etfo_hasJwt v t he) (by simp [h])
  | none => rfl

theorem processLoop_nil (acc : List JVal) : processLoop [] acc = (none, acc) :=
  rfl

theorem processLoop_unp (s : String) (rest : List RawEntry) (acc : List JVal) :
    processLoop (.unparsable s :: rest) acc =
      if s = "" then processLoop rest acc
      else if looks_like_jwt s then (some s, acc)
      else processLoop rest acc :=
  rfl

theorem processLoop_obj (g : List (String × JVal)) (rest : List RawEntry)
    (acc : List JVal) :
    processLoop (.parsed (.obj g) :: rest) acc =
      match extract_token_from_object (.obj g) with
      | some t =>
        if t = "" then processLoop rest (acc ++ entryTagged (.obj g))
        else (some t, acc ++ entryTagged (.obj g))
      | none => processLoop rest (acc ++ entryTagged (.obj g)) :=
  rfl

theorem processLoop_pstr (s : String) (rest : List RawEntry)
    (acc : List JVal) :
    processLoop (.parsed (.str s) :: rest) acc = processLoop rest acc := rfl

theorem processLoop_pnum (n : Int) (rest : List RawEntry) (acc : List JVal) :
    processLoop (.parsed (.num n) :: rest) acc = processLoop rest acc := rfl

theorem processLoop_pbool (b : Bool) (rest : List RawEntry) (acc : List JVal) :
    processLoop (.parsed (.bool b) :: rest) acc = processLoop rest acc := rfl

theorem processLoop_pnull (rest : List RawEntry) (acc : List JVal) :
    processLoop (.parsed .null :: rest) acc = processLoop rest acc := rfl

theorem processLoop_parr (l : List JVal) (rest : List RawEntry)
    (acc : List JVal) :
    processLoop (.parsed (.arr l) :: rest) acc = processLoop rest acc := rfl

theorem inert_step (r : RawEntry) (rest : List RawEntry) (acc : List JVal)
    (h : inertEntry r = true) :
    processLoop (r :: rest) acc = processLoop rest acc := by
  cases r with
  | unparsable s =>
    replace h : (!looks_like_jwt s) = true := h
    rw [Bool.not_eq_true'] at h
    rw [processLoop_unp]
    by_cases hs : s = ""
    · rw [if_pos hs]
    · rw [if_neg hs, if_neg (by simp [h])]
  | parsed v =>
    replace h : ((entryTagged v).isEmpty
        && (extract_token_from_object v).isNone) = true := h
    simp only [Bool.and_eq_true, List.isEmpty_iff, Option.isNone_iff_eq_none]
      at h
    cases v with
    | obj g =>
      rw [processLoop_obj, h.2, h.1]
      simp
    | str s => exact processLoop_pstr s rest acc
    | num n => exact processLoop_pnum n rest acc
    | bool b => exact processLoop_pbool b rest acc
    | null => exact processLoop_pnull rest acc
    | arr l => exact processLoop_parr l rest acc

theorem inert_list (l rest : List RawEntry) (acc : List JVal)
    (h : l.all inertEntry = true) :
    processLoop (l ++ rest) acc = processLoop rest acc := by
  induction l with
  | nil => rfl
  | cons r l2 ih =>
    simp only [List.all_cons, Bool.and_eq_true] at h
    rw [List.cons_append, inert_step r (l2 ++ rest) acc h.1, ih h.2]

theorem inert_all (l : List RawEntry) (acc : List JVal)
    (h : l.all inertEntry = true) :
    processLoop l acc = (none, acc) := by
  induction l with
  | nil => rfl
  | cons r l2 ih =>
    simp only [List.all_cons, Bool.and_eq_true] at h
    rw [inert_step r l2 acc h.1, ih h.2]

theorem noJwt_loop (entries : List RawEntry) (acc : List JVal)
    (h : snapshotHasJwt entries = false) :
    processLoop entries acc = (none, acc ++ taggedOf entries) := by
  induction entries generalizing acc with
  | nil => simp [processLoop_nil, taggedOf]
  | cons r rest ih =>
    unfold snapshotHasJwt at h
    simp only [List.any_cons, Bool.or_eq_false_iff] at h
    obtain ⟨h1, h2⟩ := h
    have h2b : snapshotHasJwt rest = false := h2
    cases r with
    | unparsable s =>
      replace h1 : looks_like_jwt s = false := h1
      have htail : taggedOf (RawEntry.unparsable s :: rest) = taggedOf rest := by
        simp [taggedOf]
      rw [processLoop_unp, htail]
      by_cases hs : s = ""
      · rw [if_pos hs]; exact ih acc h2b
      · rw [if_neg hs, if_neg (by simp [h1])]; exact ih acc h2b
    | parsed v =>
      replace h1 : jvalHasJwt v = false := h1
      cases v with
      | obj g =>
        rw [processLoop_obj, etfo_none_of_noJwt (.obj g) h1, ih _ h2b]
        simp [taggedOf]
      | str s =>
        rw [processLoop_pstr, ih acc h2b]; simp [taggedOf, entryTagged]
      | num n =>
        rw [processLoop_pnum, ih acc h2b]; simp [taggedOf, entryTagged]
      | bool b =>
        rw [processLoop_pbool, ih acc h2b]; simp [taggedOf, entryTagged]
      | null =>
        rw [processLoop_pnull, ih acc h2b]; simp [taggedOf, entryTagged]
      | arr l =>
        rw [processLoop_parr, ih acc h2b]; simp [taggedOf, entryTagged]

theorem hostPass_cons (v : JVal) (rest : List JVal) :
    hostPass (v :: rest) =
      match tokenTarget v with
      | none => .error .attributeError
      | some tgt =>
        if strContains (toLowerStr tgt) "graph.microsoft.com" then
          match tokenSecret v with
          | some s => if truthy s then .ok (some s) else hostPass rest
          | none => hostPass rest
        else hostPass rest :=
  rfl

theorem secretPass_cons (v : JVal) (rest : List JVal) :
    secretPass (v :: rest) =
      match tokenSecret v with
      | some s => if truthy s then some s else secretPass rest
      | none => secretPass rest :=
  rfl

theorem hostPass_falsy (toks : List JVal)
    (h : toks.all (fun v => secretFalsy v && targetOk v) = true) :
    hostPass toks = .ok none := by
  induction toks with
  | nil => rfl
  | cons v rest ih =>
    simp only [List.all_cons, Bool.and_eq_true] at h
    obtain ⟨⟨h1, h2⟩, h3⟩ := h
    replace h1 : (match tokenSecret v with
      | some s => !truthy s
      | none => true) = true := h1
    rw [hostPass_cons]
    cases ht : tokenTarget v with
    | none => simp [targetOk, ht] at h2
    | some tgt =>
      show (if strContains (toLowerStr tgt) "graph.microsoft.com" then
          match tokenSecret v with
          | some s => if truthy s then Except.ok (some s) else hostPass rest
          | none => hostPass rest
        else hostPass rest) = .ok none
      cases hs : tokenSecret v with
      | none => simp [ih h3]
      | some s =>
        rw [hs] at h1
        replace h1 : (!truthy s) = true := h1
        rw [Bool.not_eq_true'] at h1
        simp [h1, ih h3]

theorem secretPass_falsy (toks : List JVal)
    (h : toks.all secretFalsy = true) :
    secretPass toks = none := by
  induction toks with
  | nil => rfl
  | cons v rest ih =>
    simp only [List.all_cons, Bool.and_eq_true] at h
    replace h1 : (match tokenSecret v with
      | some s => !truthy s
      | none => true) = true := h.1
    rw [secretPass_cons]
    cases hs : tokenSecret v with
    | none => simp [ih h.2]
    | some s =>
      rw [hs] at h1
      replace h1 : (!truthy s) = true := h1
      rw [Bool.not_eq_true'] at h1
      simp [h1, ih h.2]


theorem passResult_falsy (toks : List JVal)
    (h : toks.all (fun v => secretFalsy v && targetOk v) = true) :
    passResult toks = .ok none := by
  have h2b : toks.all secretFalsy = true := by
    rw [List.all_eq_true] at h ⊢
    intro x hx
    have hx2 := h x hx
    simp only [Bool.and_eq_true] at hx2
    exact hx2.1
  unfold passResult
  rw [hostPass_falsy _ h]
  show Except.ok (secretPass toks) = .ok none
  rw [secretPass_falsy _ h2b]

/-! ## Claim C1 -/

/-- A storage entry shaped as a tagged access credential with the given
target audience and secret. -/
def accessTokenEntry (tgt sec : String) : JVal :=
  .obj [("credentialType", .str "AccessToken"), ("target", .str tgt),
    ("secret", .str sec)]

theorem processLoop_ate (tgt sec : String) (rest : List RawEntry)
    (acc : List JVal) :
    processLoop (.parsed (accessTokenEntry tgt sec) :: rest) acc =
      match extract_token_from_object (accessTokenEntry tgt sec) with
      | some t =>
        if t = "" then
          processLoop rest (acc ++ entryTagged (accessTokenEntry tgt sec))
        else (some t, acc ++ entryTagged (accessTokenEntry tgt sec))
      | none =>
        processLoop rest (acc ++ entryTagged (accessTokenEntry tgt sec)) :=
  rfl

def c1_raw : String := "aaaaaaaaaaa.bbbbbbbbbbb.ccccccccccc"

def c1_secret : String := "xxxxxxxxxxx.yyyyyyyyyyy.zzzzzzzzzzz"

def c1_store : List RawEntry :=
  [.unparsable c1_raw,
   .parsed (accessTokenEntry "https://graph.microsoft.com/Calendars.Read"
     c1_secret)]

/-- C1 counterexample: the snapshot `c1_store` holds a tagged AccessToken
entry whose target contains the calendar API host and whose token is
`c1_secret`, together with an untagged, unrelated token-shaped raw value
`c1_raw` enumerated earlier.  The claim says the tagged entry's token is
returned regardless of enumeration order; the code returns the unrelated
raw value instead. -/
theorem c1_counterexample :
    extract_access_token c1_store = .ok (some (.str c1_raw))
      ∧ c1_raw ≠ c1_secret :=
  ⟨rfl, by decide⟩

/-- C1 (amended): if every other storage entry is inert — not a JWT-shaped
raw string, no hit for the generic name/shape scan, no tagged entry — then
`extract_access_token` returns the tagged host-matching entry's non-empty
token, regardless of where that entry sits in enumeration order.  A
token-shaped value found earlier via the raw-string check or the generic
scan short-circuits instead (see the counterexample). -/
theorem c1_tagged_host_preference (l1 l2 : List RawEntry) (tgt sec : String)
    (h1 : l1.all inertEntry = true) (h2 : l2.all inertEntry = true)
    (hhost : strContains (toLowerStr tgt) "graph.microsoft.com" = true)
    (hsec : sec ≠ "") :
    extract_access_token
      (l1 ++ .parsed (accessTokenEntry tgt sec) :: l2)
      = .ok (some (.str sec)) := by
  have htag : entryTagged (accessTokenEntry tgt sec)
      = [accessTokenEntry tgt sec] := by
    simp [entryTagged, accessTokenEntry, isAccessTokenTag, jget]
  unfold extract_access_token
  rw [inert_list l1 _ [] h1, processLoop_ate]
  by_cases hl : looks_like_jwt sec = true
  · have hetfo : extract_token_from_object (accessTokenEntry tgt sec)
        = some sec := by
      simp [extract_token_from_object, accessTokenEntry, keyJwt, jget, hl]
    rw [hetfo]
    simp [hsec]
  · rw [Bool.not_eq_true] at hl
    have hetfo : extract_token_from_object (accessTokenEntry tgt sec)
        = none := by
      simp [extract_token_from_object, accessTokenEntry, keyJwt, jget, hl,
        valuesScan]
    have htar : tokenTarget (accessTokenEntry tgt sec) = some tgt := by
      simp [tokenTarget, accessTokenEntry, jget]
    have hh : hostPass [accessTokenEntry tgt sec] = .ok (some (.str sec)) := by
      rw [hostPass_cons, htar]
      simp [tokenSecret, accessTokenEntry, jget, truthy, hhost, hsec]
    rw [hetfo, htag, inert_all l2 _ h2]
    simp [passResult, hh]

/-- C1 witness: a concrete snapshot with inert entries before and after the
tagged host-matching entry. -/
theorem c1_witness :
    extract_access_token
      [.unparsable "hello",
       .parsed (accessTokenEntry "https://GRAPH.microsoft.com/x" c1_secret),
       .unparsable "world"]
      = .ok (some (.str c1_secret)) :=
  c1_tagged_host_preference [.unparsable "hello"] [.unparsable "world"]
    "https://GRAPH.microsoft.com/x" c1_secret (by decide) (by decide)
    (by decide) (by decide)

/-! ## Claim C2 -/

def c2_store : List RawEntry :=
  [.parsed (.obj [("credentialType", .str "AccessToken"),
    ("secret", .str "x")])]

/-- C2 counterexample: no string anywhere in the snapshot `c2_store` is a
three-part dot-separated token, yet `extract_access_token` returns the
tagged entry's secret "x" (the fallback passes return the secret without
any shape validation), not absent. -/
theorem c2_counterexample :
    snapshotHasJwt c2_store = false
      ∧ extract_access_token c2_store = .ok (some (.str "x")) :=
  ⟨by decide, rfl⟩

/-- C2 (amended): `extract_access_token` returns absent whenever no entry
contains a JWT-shaped string (raw value or nested string field) and,
additionally, no collected tagged access-credential entry carries a truthy
secret or a truthy non-string target.  The second condition is needed
because the tagged-entry fallback passes return a secret without validating
its shape; the target condition is needed because a truthy non-string
target makes line 307 raise an uncaught AttributeError instead of
returning (see `extract_access_token_raises_on_nonstring_target`). -/
theorem c2_absent_when_no_plausible_token (entries : List RawEntry)
    (h1 : snapshotHasJwt entries = false)
    (h2 : (taggedOf entries).all (fun v => secretFalsy v && targetOk v)
      = true) :
    extract_access_token entries = .ok none := by
  unfold extract_access_token
  rw [noJwt_loop entries [] h1]
  show passResult ([] ++ taggedOf entries) = .ok none
  simp only [List.nil_append]
  exact passResult_falsy _ h2

/-- The exception path excluded by the amended C2 hypothesis is real: a
tagged entry whose target is a truthy non-string makes
`(token.get("target") or "").lower()` (meetings_fetch.py:307) raise, and
`extract_access_token` propagates it instead of returning. -/
theorem extract_access_token_raises_on_nonstring_target :
    extract_access_token
      [.parsed (.obj [("credentialType", .str "AccessToken"),
        ("target", .num 5)])]
      = .error .attributeError :=
  rfl

/-- C2 witness: a snapshot with a non-token raw string, an untagged object
and a tagged entry with an empty secret and a string target yields
absent. -/
theorem c2_witness :
    extract_access_token
      [.unparsable "hello", .parsed (.obj [("a", .str "short")]),
       .parsed (.obj [("credentialType", .str "AccessToken"),
         ("secret", .str ""), ("target", .str "https://x")])]
      = .ok none :=
  c2_absent_when_no_plausible_token _ (by decide) (by decide)

/-! ## Claims C3-C5 (the Time/Window Resolver) -/

/-- What `month_range` actually accepts from a non-empty specifier: a split
on "-" into exactly two `int`-parsable parts with year in 1-9999 and month
in 1-12. -/
def monthSpecValid (s : String) : Bool :=
  match splitChar '-' s.toList with
  | [ys, ms] =>
    match pyIntParse (String.mk ys), pyIntParse (String.mk ms) with
    | some y, some m => decide (1 ≤ y ∧ y ≤ 9999 ∧ 1 ≤ m ∧ m ≤ 12)
    | some _, none => false
    | none, _ => false
  | _ => false

def c3_now : DT := ⟨2024, 6, 15, 12, 0, 0⟩

/-- C3 counterexample: "2024-1" does not match the spec's "YYYY-MM" form
(two-digit month), yet `month_range` silently accepts it as January 2024;
also the empty specifier (likewise not "YYYY-MM") silently falls back to
the current month instead of failing. -/
theorem c3_counterexample :
    spec_matches_yyyy_mm "2024-1" = false
      ∧ month_range (some "2024-1") c3_now
          = .ok (⟨2024, 1, 1, 0, 0, 0⟩, ⟨2024, 1, 31, 23, 59, 59⟩, "2024-01")
      ∧ spec_matches_yyyy_mm "" = false
      ∧ month_range (some "") c3_now
          = .ok (⟨2024, 6, 1, 0, 0, 0⟩, c3_now, "2024-06") :=
  ⟨by decide, rfl, by decide, rfl⟩

theorem monthStart_some_ne (s : String) (now : DT) (hs : s ≠ "") :
    monthStart (some s) now = monthParse s := by
  have he : monthStart (some s) now =
      (if s = "" then Except.ok ⟨now.year, now.month, 1, 0, 0, 0⟩
       else monthParse s) := rfl
  rw [he, if_neg hs]

theorem monthParse_invalid (s : String) (hv : monthSpecValid s = false) :
    monthParse s = .error .invalidMonthFormat := by
  unfold monthParse
  unfold monthSpecValid at hv
  cases hsp : splitChar '-' s.toList with
  | nil => rfl
  | cons ys tail =>
    cases tail with
    | nil => rfl
    | cons ms tail2 =>
      cases tail2 with
      | cons r t3 => rfl
      | nil =>
        rw [hsp] at hv
        replace hv : (match pyIntParse (String.mk ys),
            pyIntParse (String.mk ms) with
          | some y, some m => decide (1 ≤ y ∧ y ≤ 9999 ∧ 1 ≤ m ∧ m ≤ 12)
          | some _, none => false
          | none, _ => false) = false := hv
        show (match pyIntParse (String.mk ys), pyIntParse (String.mk ms) with
          | some y, some m =>
            if 1 ≤ y ∧ y ≤ 9999 ∧ 1 ≤ m ∧ m ≤ 12 then
              Except.ok (⟨y.toNat, m.toNat, 1, 0, 0, 0⟩ : DT)
            else Except.error MonthError.invalidMonthFormat
          | some _, none => Except.error MonthError.invalidMonthFormat
          | none, _ => Except.error MonthError.invalidMonthFormat)
          = .error .invalidMonthFormat
        cases hy : pyIntParse (String.mk ys) with
        | none => rfl
        | some y =>
          cases hm : pyIntParse (String.mk ms) with
          | none => rfl
          | some m =>
            rw [hy, hm] at hv
            replace hv : decide (1 ≤ y ∧ y ≤ 9999 ∧ 1 ≤ m ∧ m ≤ 12)
                = false := hv
            show (if 1 ≤ y ∧ y ≤ 9999 ∧ 1 ≤ m ∧ m ≤ 12 then
                Except.ok (⟨y.toNat, m.toNat, 1, 0, 0, 0⟩ : DT)
              else Except.error MonthError.invalidMonthFormat)
              = Except.error MonthError.invalidMonthFormat
            rw [if_neg (of_decide_eq_false hv)]

theorem monthStart_invalid (s : String) (now : DT) (hs : s ≠ "")
    (hv : monthSpecValid s = false) :
    monthStart (some s) now = .error .invalidMonthFormat := by
  rw [monthStart_some_ne s now hs]
  exact monthParse_invalid s hv

/-- C3 (amended): `month_range` fails with the invalid-format error for
every non-empty specifier that does not split on "-" into two
`int`-parsable parts giving a valid year and month.  It is more liberal
than the spec's "YYYY-MM": non-canonical forms such as "2024-1" are
accepted, and the empty string falls back to the current month (see the
counterexample). -/
theorem c3_invalid_month_error (s : String) (now : DT) (hs : s ≠ "")
    (hv : monthSpecValid s = false) :
    month_range (some s) now = .error .invalidMonthFormat := by
  unfold month_range
  rw [monthStart_invalid s now hs hv]

/-- C3 witness: the spec's own examples fail with the invalid-format
error. -/
theorem c3_witness :
    month_range (some "2024/01") c3_now = .error .invalidMonthFormat
      ∧ month_range (some "abcd") c3_now = .error .invalidMonthFormat :=
  ⟨c3_invalid_month_error "2024/01" c3_now (by decide) (by decide),
   c3_invalid_month_error "abcd" c3_now (by decide) (by decide)⟩

theorem monthStart_shape (mv : Option String) (now : DT) (d : DT)
    (h : monthStart mv now = .ok d) :
    d.day = 1 ∧ d.hour = 0 ∧ d.minute = 0 ∧ d.second = 0 := by
  cases mv with
  | none =>
    replace h : (Except.ok (⟨now.year, now.month, 1, 0, 0, 0⟩ : DT)
        : Except MonthError DT) = .ok d := h
    injection h with h2
    subst h2
    exact ⟨rfl, rfl, rfl, rfl⟩
  | some s =>
    by_cases hs : s = ""
    · subst hs
      replace h : (Except.ok (⟨now.year, now.month, 1, 0, 0, 0⟩ : DT)
          : Except MonthError DT) = .ok d := h
      injection h with h2
      subst h2
      exact ⟨rfl, rfl, rfl, rfl⟩
    · rw [monthStart_some_ne s now hs] at h
      unfold monthParse at h
      cases hsp : splitChar '-' s.toList with
      | nil => rw [hsp] at h; exact absurd h (by simp)
      | cons ys tail =>
        cases tail with
        | nil => rw [hsp] at h; exact absurd h (by simp)
        | cons ms tail2 =>
          cases tail2 with
          | cons r t3 => rw [hsp] at h; exact absurd h (by simp)
          | nil =>
            rw [hsp] at h
            replace h : (match pyIntParse (String.mk ys),
                pyIntParse (String.mk ms) with
              | some y, some m =>
                if 1 ≤ y ∧ y ≤ 9999 ∧ 1 ≤ m ∧ m ≤ 12 then
                  Except.ok (⟨y.toNat, m.toNat, 1, 0, 0, 0⟩ : DT)
                else Except.error MonthError.invalidMonthFormat
              | some _, none => Except.error MonthError.invalidMonthFormat
              | none, _ => Except.error MonthError.invalidMonthFormat)
              = .ok d := h
            cases hy : pyIntParse (String.mk ys) with
            | none => rw [hy] at h; exact absurd h (by simp)
            | some y =>
              cases hm : pyIntParse (String.mk ms) with
              | none => rw [hy, hm] at h; exact absurd h (by simp)
              | some m =>
                rw [hy, hm] at h
                replace h : (if 1 ≤ y ∧ y ≤ 9999 ∧ 1 ≤ m ∧ m ≤ 12 then
                    Except.ok (⟨y.toNat, m.toNat, 1, 0, 0, 0⟩ : DT)
                  else Except.error MonthError.invalidMonthFormat)
                  = .ok d := h
                by_cases hr : 1 ≤ y ∧ y ≤ 9999 ∧ 1 ≤ m ∧ m ≤ 12
                · rw [if_pos hr] at h
                  injection h with h2
                  subst h2
                  exact ⟨rfl, rfl, rfl, rfl⟩
                · rw [if_neg hr] at h
                  exact absurd h (by simp)

theorem month_range_ok (mv : Option String) (now st en : DT) (k : String)
    (h : month_range mv now = .ok (st, en, k)) :
    st.day = 1 ∧ st.hour = 0 ∧ st.minute = 0 ∧ st.second = 0
      ∧ en = pyMin now (monthLastSecond st.year st.month)
      ∧ k = month_key_of st := by
  unfold month_range at h
  cases hms : monthStart mv now with
  | error e => rw [hms] at h; exact absurd h (by simp)
  | ok start =>
    rw [hms] at h
    replace h : (if start.year = 9999 ∧ start.month = 12 then
        Except.error MonthError.yearOutOfRange
      else Except.ok (start, pyMin now (monthLastSecond start.year
        start.month), month_key_of start)) = .ok (st, en, k) := h
    by_cases hy : start.year = 9999 ∧ start.month = 12
    · rw [if_pos hy] at h; exact absurd h (by simp)
    · rw [if_neg hy] at h
      injection h with h2
      obtain ⟨h3, h4, h5⟩ : start = st
          ∧ pyMin now (monthLastSecond start.year start.month) = en
          ∧ month_key_of start = k := by
        have := h2
        rw [Prod.ext_iff] at this
        rw [Prod.ext_iff] at this
        exact ⟨this.1, this.2.1, this.2.2⟩
      obtain ⟨hd, hh, hm, hs2⟩ := monthStart_shape mv now start hms
      rw [h3] at hd hh hm hs2 h4 h5
      exact ⟨hd, hh, hm, hs2, h4.symm, h5.symm⟩

theorem daysInMonth_pos (y m : Nat) : 1 ≤ daysInMonth y m := by
  unfold daysInMonth
  split
  · split <;> omega
  · split <;> omega

theorem enc_first_le_last (st : DT) (hd : st.day = 1) (hh : st.hour = 0)
    (hm : st.minute = 0) (hs : st.second = 0) :
    st.enc ≤ (monthLastSecond st.year st.month).enc := by
  obtain ⟨y, m, d, ho, mi, se⟩ := st
  simp only at hd hh hm hs
  subst hd hh hm hs
  have hD := daysInMonth_pos y m
  unfold DT.enc monthLastSecond
  simp only
  generalize daysInMonth y m = D at hD
  omega

/-- C4 counterexample: for the month specifier "2024-03" with "now" in
January 2024 (a future month), the resolved window has end = now < start,
violating the claimed start ≤ end invariant. -/
theorem c4_counterexample :
    month_range (some "2024-03") (⟨2024, 1, 15, 0, 0, 0⟩ : DT)
        = .ok (⟨2024, 3, 1, 0, 0, 0⟩, ⟨2024, 1, 15, 0, 0, 0⟩, "2024-03")
      ∧ dtLe ⟨2024, 3, 1, 0, 0, 0⟩ ⟨2024, 1, 15, 0, 0, 0⟩ = false :=
  ⟨rfl, by decide⟩

/-- C4 (amended): for every successfully resolved window, start ≤ end holds
whenever the requested month begins at or before "now" (current or past
months); for a month beginning after "now", the end is clamped to "now",
which precedes the start. -/
theorem c4_start_le_end_unless_future (mv : Option String) (now st en : DT)
    (k : String) (h : month_range mv now = .ok (st, en, k)) :
    (dtLe st now = true → dtLe st en = true)
      ∧ (dtLe st now = false → en = now) := by
  obtain ⟨hd, hh, hm, hs2, hen, _⟩ := month_range_ok mv now st en k h
  have hle := enc_first_le_last st hd hh hm hs2
  subst hen
  constructor
  · intro hnow
    unfold dtLe at hnow ⊢
    unfold pyMin dtLt
    simp only [decide_eq_true_eq] at hnow ⊢
    split
    · exact hle
    · exact hnow
  · intro hnow
    unfold dtLe at hnow
    simp only [decide_eq_false_iff_not, not_le] at hnow
    unfold pyMin dtLt
    rw [if_neg (by simp only [decide_eq_true_eq, not_lt]; omega)]

/-- C4 witness: the May 2024 window requested with "now" in June 2024
satisfies start ≤ end. -/
theorem c4_witness :
    dtLe ⟨2024, 5, 1, 0, 0, 0⟩ ⟨2024, 5, 31, 23, 59, 59⟩ = true :=
  (c4_start_le_end_unless_future (some "2024-05") ⟨2024, 6, 15, 12, 0, 0⟩
    ⟨2024, 5, 1, 0, 0, 0⟩ ⟨2024, 5, 31, 23, 59, 59⟩ "2024-05" rfl).1
    (by decide)

/-- C5: every successfully resolved window starts at the first instant of
the specified month (day 1, midnight) and carries that month's key; the end
is the last second of that month when that last second precedes "now"
(month fully in the past), and is "now" when "now" is inside the month
(current month). -/
theorem c5_window_bounds (mv : Option String) (now st en : DT) (k : String)
    (h : month_range mv now = .ok (st, en, k)) :
    st.day = 1 ∧ st.hour = 0 ∧ st.minute = 0 ∧ st.second = 0
      ∧ k = month_key_of st
      ∧ (dtLt (monthLastSecond st.year st.month) now = true
          → en = monthLastSecond st.year st.month)
      ∧ (dtLe st now = true
          → dtLe now (monthLastSecond st.year st.month) = true → en = now) := by
  obtain ⟨hd, hh, hm, hs2, hen, hk⟩ := month_range_ok mv now st en k h
  subst hen hk
  refine ⟨hd, hh, hm, hs2, rfl, ?_, ?_⟩
  · intro hpast
    unfold dtLt at hpast
    unfold pyMin dtLt
    rw [if_pos hpast]
  · intro _ hcur
    unfold dtLe at hcur
    simp only [decide_eq_true_eq] at hcur
    unfold pyMin dtLt
    rw [if_neg (by simp only [decide_eq_true_eq, not_lt]; omega)]

/-- C5 witness: the March 2024 window requested with "now" in June 2024
(month fully in the past) ends at the last second of March. -/
theorem c5_witness :
    (⟨2024, 3, 31, 23, 59, 59⟩ : DT) = monthLastSecond 2024 3 :=
  (c5_window_bounds (some "2024-03") ⟨2024, 6, 15, 12, 0, 0⟩
    ⟨2024, 3, 1, 0, 0, 0⟩ ⟨2024, 3, 31, 23, 59, 59⟩ "2024-03" rfl).2.2.2.2.2.1
    (by decide)

/-! ## Claim C6 (event-time normalization) -/

theorem splitFirst_append (sep : Char) (l1 l2 : List Char) (h : sep ∉ l1) :
    splitFirst sep (l1 ++ sep :: l2) = some (l1, l2) := by
  induction l1 with
  | nil =>
    rw [List.nil_append]
    show (if sep = sep then some (([] : List Char), l2) else _) = _
    rw [if_pos rfl]
  | cons c cs ih =>
    simp only [List.mem_cons, not_or] at h
    rw [List.cons_append]
    show (if c = sep then some (([] : List Char), cs ++ sep :: l2)
      else match splitFirst sep (cs ++ sep :: l2) with
        | some (a, b) => some (c :: a, b)
        | none => none) = some (c :: cs, l2)
    rw [if_neg (fun hc => h.1 hc.symm), ih h.2]

theorem zCanon_concat_z (l : List Char) :
    zCanon (l ++ ['Z']) = l ++ "+00:00".toList := by
  unfold zCanon
  rw [List.getLast?_concat]
  simp [List.dropLast_concat]

theorem fracSplit_plus (frac o : List Char) (hf : '+' ∉ frac) :
    fracSplit (frac ++ '+' :: o) = (frac, '+' :: o) := by
  unfold fracSplit
  rw [splitFirst_append '+' frac o hf]

theorem normalizeChars_z (base frac : List Char) (hb : '.' ∉ base)
    (hf : '+' ∉ frac) :
    normalizeChars (base ++ '.' :: (frac ++ ['Z']))
      = base ++ '.' :: ((frac ++ "000000".toList).take 6
          ++ "+00:00".toList) := by
  have hz : base ++ '.' :: (frac ++ ['Z']) = (base ++ '.' :: frac) ++ ['Z'] := by
    simp
  have h1 : zCanon (base ++ '.' :: (frac ++ ['Z']))
      = base ++ '.' :: (frac ++ "+00:00".toList) := by
    rw [hz, zCanon_concat_z]
    simp
  have h2 : splitFirst '.' (base ++ '.' :: (frac ++ "+00:00".toList))
      = some (base, frac ++ "+00:00".toList) :=
    splitFirst_append '.' base _ hb
  have h3 : fracSplit (frac ++ "+00:00".toList) = (frac, "+00:00".toList) := by
    have hc : ("+00:00".toList : List Char) = '+' :: "00:00".toList := rfl
    rw [hc, fracSplit_plus frac _ hf]
  have h3b : fracSplit (frac ++ ['+', '0', '0', ':', '0', '0'])
      = (frac, ['+', '0', '0', ':', '0', '0']) := h3
  unfold normalizeChars
  rw [h1, h2]
  simp [h3b]

/-- C6: `parse_event_time` on the time part with dateTime
"2024-03-01T10:00:00.1234567Z" under output zone UTC yields exactly the
instant 2024-03-01T10:00:00.123456Z; and in general, for a wall-clock
string of shape base.fracZ, the normalization truncates/zero-pads the
fractional digits to exactly six and canonicalizes the "Z" suffix to the
"+00:00" UTC offset before parsing. -/
theorem c6_fractional_normalization :
    parse_event_time (some ⟨some "2024-03-01T10:00:00.1234567Z", none⟩)
        Tz.utc = some (toInstant ⟨2024, 3, 1, 10, 0, 0⟩ 123456 0)
      ∧ ∀ (base frac : List Char), '.' ∉ base → '+' ∉ frac →
          normalize_iso_datetime (String.mk (base ++ '.' :: (frac ++ ['Z'])))
              = String.mk (base ++ '.' :: ((frac ++ "000000".toList).take 6
                  ++ "+00:00".toList))
            ∧ ((frac ++ "000000".toList).take 6).length = 6 := by
  constructor
  · rfl
  · intro base frac hb hf
    constructor
    · unfold normalize_iso_datetime
      have ht : (String.mk (base ++ '.' :: (frac ++ ['Z']))).toList
          = base ++ '.' :: (frac ++ ['Z']) := rfl
      rw [ht, normalizeChars_z base frac hb hf]
    · rw [List.length_take, List.length_append]
      have h6 : ("000000".toList : List Char).length = 6 := rfl
      rw [h6]
      omega

/-- C6 witness: the concrete seven-digit fractional input from the spec. -/
theorem c6_witness :
    normalize_iso_datetime "2024-03-01T10:00:00.1234567Z"
      = "2024-03-01T10:00:00.123456+00:00" := by
  have h := (c6_fractional_normalization.2 "2024-03-01T10:00:00".toList
    "1234567".toList (by decide) (by decide)).1
  exact h

/-! ## Claim C7 (pagination keeps partial results) -/

theorem fetch_events_some {α : Type} (fuel : Nat) (net : String → PageResp α)
    (u : String) :
    fetch_events (fuel + 1) net (some u) =
      if u = "" then []
      else if (net u).status = 200 then
        (net u).value ++ fetch_events fuel net (net u).nextLink
      else [] :=
  rfl

theorem fetch_events_stop {α : Type} (fuel : Nat) (net : String → PageResp α)
    (u : String) (hst : (net u).status ≠ 200) :
    fetch_events fuel net (some u) = [] := by
  by_cases hu : u = ""
  · subst hu
    cases fuel with
    | zero => rfl
    | succ f => rw [fetch_events_some f net "", if_pos rfl]
  · cases fuel with
    | zero =>
      show (if u = "" then [] else []) = []
      simp
    | succ f =>
      rw [fetch_events_some f net u, if_neg hu, if_neg hst]

/-- C7: when page 1 responds 200 with items and a continuation link and
page 2 responds with a non-success status, `fetch_events` (with any
remaining step budget) returns exactly page 1's items: the failed page
terminates pagination without discarding previously fetched pages, and the
total function raises nothing. -/
theorem c7_failed_page_keeps_partial (α : Type)
    (net : String → PageResp α) (u1 u2 : String) (items : List α)
    (fuel : Nat) (h1 : u1 ≠ "")
    (hp1 : net u1 = ⟨200, items, some u2⟩)
    (hp2 : (net u2).status ≠ 200) :
    fetch_events (fuel + 2) net (some u1) = items := by
  rw [show fuel + 2 = (fuel + 1) + 1 from rfl,
    fetch_events_some (fuel + 1) net u1, if_neg h1, hp1]
  show (if (200 : Nat) = 200 then
      items ++ fetch_events (fuel + 1) net (some u2)
    else []) = items
  rw [if_pos rfl]
  by_cases hu2 : u2 = ""
  · subst hu2
    rw [fetch_events_some fuel net "", if_pos rfl, List.append_nil]
  · rw [fetch_events_some fuel net u2, if_neg hu2, if_neg hp2,
      List.append_nil]

def c7_net : String → PageResp Nat := fun u =>
  if u = "p1" then ⟨200, [1, 2], some "p2"⟩
  else if u = "p2" then ⟨500, [9], none⟩
  else ⟨404, [], none⟩

/-- C7 witness: a concrete two-page sequence whose second page fails with
status 500. -/
theorem c7_witness : fetch_events 2 c7_net (some "p1") = [1, 2] :=
  c7_failed_page_keeps_partial Nat c7_net "p1" "p2" [1, 2] 0 (by decide)
    rfl (by decide)

/-! ## Order and dedup lemmas for the email list -/

theorem charListLe_total (a : List Char) :
    ∀ b, charListLe a b = true ∨ charListLe b a = true := by
  induction a with
  | nil => intro b; left; rfl
  | cons x xs ih =>
    intro b
    cases b with
    | nil => right; rfl
    | cons y ys =>
      show (if x = y then charListLe xs ys else decide (x < y)) = true
        ∨ (if y = x then charListLe ys xs else decide (y < x)) = true
      by_cases hxy : x = y
      · subst hxy
        rw [if_pos rfl, if_pos rfl]
        exact ih ys
      · rw [if_neg hxy, if_neg (Ne.symm hxy)]
        rcases lt_or_gt_of_ne hxy with hlt | hgt
        · left; exact decide_eq_true hlt
        · right; exact decide_eq_true hgt

theorem charListLe_trans (a : List Char) :
    ∀ b c, charListLe a b = true → charListLe b c = true
      → charListLe a c = true := by
  induction a with
  | nil => intro b c _ _; rfl
  | cons x xs ih =>
    intro b c hab hbc
    cases b with
    | nil => exact absurd hab (by simp [charListLe])
    | cons y ys =>
      cases c with
      | nil => exact absurd hbc (by simp [charListLe])
      | cons z zs =>
        replace hab : (if x = y then charListLe xs ys else decide (x < y))
            = true := hab
        replace hbc : (if y = z then charListLe ys zs else decide (y < z))
            = true := hbc
        show (if x = z then charListLe xs zs else decide (x < z)) = true
        by_cases hxy : x = y
        · subst hxy
          rw [if_pos rfl] at hab
          by_cases hxz : x = z
          · subst hxz
            rw [if_pos rfl] at hbc
            rw [if_pos rfl]
            exact ih ys zs hab hbc
          · rw [if_neg hxz] at hbc
            rw [if_neg hxz]
            exact hbc
        · rw [if_neg hxy] at hab
          replace hab : x < y := of_decide_eq_true hab
          by_cases hyz : y = z
          · subst hyz
            rw [if_neg hxy]
            exact decide_eq_true hab
          · rw [if_neg hyz] at hbc
            replace hbc : y < z := of_decide_eq_true hbc
            have hxz : x < z := lt_trans hab hbc
            rw [if_neg (ne_of_lt hxz)]
            exact decide_eq_true hxz

theorem charListLe_antisymm (a : List Char) :
    ∀ b, charListLe a b = true → charListLe b a = true → a = b := by
  induction a with
  | nil =>
    intro b _ hba
    cases b with
    | nil => rfl
    | cons y ys => exact absurd hba (by simp [charListLe])
  | cons x xs ih =>
    intro b hab hba
    cases b with
    | nil => exact absurd hab (by simp [charListLe])
    | cons y ys =>
      replace hab : (if x = y then charListLe xs ys else decide (x < y))
          = true := hab
      replace hba : (if y = x then charListLe ys xs else decide (y < x))
          = true := hba
      by_cases hxy : x = y
      · subst hxy
        rw [if_pos rfl] at hab hba
        rw [ih ys hab hba]
      · rw [if_neg hxy] at hab
        rw [if_neg (Ne.symm hxy)] at hba
        exact absurd (of_decide_eq_true hba)
          (lt_asymm (of_decide_eq_true hab))

instance : IsTotal String strLeRel :=
  ⟨fun a b => charListLe_total a.toList b.toList⟩

instance : IsTrans String strLeRel :=
  ⟨fun a b c => charListLe_trans a.toList b.toList c.toList⟩

instance : IsAntisymm String strLeRel := by
  refine ⟨fun a b hab hba => ?_⟩
  have h := charListLe_antisymm a.toList b.toList hab hba
  cases a
  cases b
  exact congrArg String.mk (by simpa [String.toList] using h)

theorem mem_dedupL (a : String) (l : List String) :
    a ∈ dedupL l ↔ a ∈ l := by
  induction l with
  | nil => simp [dedupL]
  | cons x xs ih =>
    unfold dedupL
    by_cases hx : x ∈ xs
    · rw [if_pos hx, ih]
      constructor
      · exact fun h => List.mem_cons_of_mem x h
      · intro h
        rcases List.mem_cons.mp h with h1 | h2
        · subst h1; exact hx
        · exact h2
    · rw [if_neg hx]
      simp [List.mem_cons, ih]

theorem nodup_dedupL (l : List String) : (dedupL l).Nodup := by
  induction l with
  | nil => exact List.nodup_nil
  | cons x xs ih =>
    unfold dedupL
    by_cases hx : x ∈ xs
    · rw [if_pos hx]; exact ih
    · rw [if_neg hx]
      exact List.nodup_cons.mpr ⟨fun hmem => hx ((mem_dedupL x xs).1 hmem), ih⟩

theorem dedupL_length_le (l : List String) : (dedupL l).length ≤ l.length := by
  induction l with
  | nil => simp [dedupL]
  | cons x xs ih =>
    unfold dedupL
    by_cases hx : x ∈ xs
    · rw [if_pos hx]
      exact Nat.le_succ_of_le ih
    · rw [if_neg hx]
      simpa using ih

theorem dedupL_perm_of_perm (l1 l2 : List String) (hp : l1.Perm l2) :
    (dedupL l1).Perm (dedupL l2) := by
  refine (List.perm_ext_iff_of_nodup (nodup_dedupL l1) (nodup_dedupL l2)).2
    (fun a => ?_)
  rw [mem_dedupL, mem_dedupL]
  exact hp.mem_iff

theorem sortedEmails_perm (recs recs2 : List AttRecord)
    (hp : recs.Perm recs2) : sortedEmails recs = sortedEmails recs2 := by
  unfold sortedEmails
  have h1 : (collectEmails recs).Perm (collectEmails recs2) :=
    List.Perm.filterMap _ hp
  have h2 := dedupL_perm_of_perm _ _ h1
  have h3 : ((dedupL (collectEmails recs)).insertionSort strLeRel).Perm
      ((dedupL (collectEmails recs2)).insertionSort strLeRel) :=
    ((List.perm_insertionSort strLeRel _).trans h2).trans
      (List.perm_insertionSort strLeRel _).symm
  exact List.eq_of_perm_of_sorted h3
    (List.sorted_insertionSort strLeRel _) (List.sorted_insertionSort strLeRel _)

theorem sortedEmails_length_le (recs : List AttRecord) :
    (sortedEmails recs).length ≤ recs.length := by
  unfold sortedEmails
  rw [List.length_insertionSort]
  exact le_trans (dedupL_length_le _) (List.length_filterMap_le _ _)

/-! ## Claims C8 and C10 (the Attendance Enricher) -/

theorem fa_meeting_bad_status (net : AttendanceNet) (ju : String)
    (hst : (net.onlineMeetings (escape_odata_string ju)).status ≠ 200) :
    fa_meeting net ju = none := by
  simp only [fa_meeting]
  rw [if_pos hst]

theorem fa_meeting_no_result (net : AttendanceNet) (ju : String)
    (hst : (net.onlineMeetings (escape_odata_string ju)).status = 200)
    (hval : (net.onlineMeetings (escape_odata_string ju)).value = []) :
    fa_meeting net ju = none := by
  simp only [fa_meeting]
  rw [if_neg (fun hne => hne hst), hval]

theorem fa_meeting_cons (net : AttendanceNet) (ju : String) (m : MeetingRes)
    (ms : List MeetingRes)
    (hst : (net.onlineMeetings (escape_odata_string ju)).status = 200)
    (hval : (net.onlineMeetings (escape_odata_string ju)).value = m :: ms) :
    fa_meeting net ju =
      (match m.id with
       | none => none
       | some mid => if mid = "" then none else fa_report net mid) := by
  simp only [fa_meeting]
  rw [if_neg (fun hne => hne hst), hval]

theorem fa_report_bad_status (net : AttendanceNet) (mid : String)
    (hst : (net.attendanceReports mid).status ≠ 200) :
    fa_report net mid = none := by
  simp only [fa_report]
  rw [if_pos hst]

theorem fa_report_empty (net : AttendanceNet) (mid : String)
    (hst : (net.attendanceReports mid).status = 200)
    (hval : (net.attendanceReports mid).value = []) :
    fa_report net mid = none := by
  simp only [fa_report]
  rw [if_neg (fun hne => hne hst), if_pos (by rw [hval]; rfl)]

theorem fa_report_last (net : AttendanceNet) (mid : String) (rep : AttReport)
    (hst : (net.attendanceReports mid).status = 200)
    (hne : (net.attendanceReports mid).value ≠ [])
    (hlast : (sortReports (net.attendanceReports mid).value).getLast?
      = some rep) :
    fa_report net mid =
      (match rep.id with
       | none => none
       | some rid => if rid = "" then none else fa_records net mid rid) := by
  simp only [fa_report]
  rw [if_neg (fun h => h hst),
    if_neg (by simp only [List.isEmpty_iff]; exact hne), hlast]

theorem fa_records_bad_status (net : AttendanceNet) (mid rid : String)
    (hst : (net.attendanceRecords mid rid).status ≠ 200) :
    fa_records net mid rid = none := by
  simp only [fa_records]
  rw [if_pos hst]

theorem fa_records_ok (net : AttendanceNet) (mid rid : String)
    (hst : (net.attendanceRecords mid rid).status = 200) :
    fa_records net mid rid
      = some ((net.attendanceRecords mid rid).value.length,
          sortedEmails (net.attendanceRecords mid rid).value) := by
  simp only [fa_records]
  rw [if_neg (fun hne => hne hst)]

theorem fetch_attendance_some (net : AttendanceNet) (ju : String) :
    fetch_attendance net (some ju) =
      if ju = "" then none else fa_meeting net ju :=
  rfl

/-- C8: `fetch_attendance` returns absent — and, being a total function,
raises nothing — when the join URL is absent (or falsy), when the meeting
lookup succeeds with zero results or a first result without an id, when the
attendance-reports list is empty, and when any of the three HTTP calls in
the chain returns a non-success status. -/
theorem c8_absent_cases (net : AttendanceNet) :
    fetch_attendance net none = none
    ∧ fetch_attendance net (some "") = none
    ∧ (∀ ju : String, ju ≠ "" →
        (net.onlineMeetings (escape_odata_string ju)).status ≠ 200 →
        fetch_attendance net (some ju) = none)
    ∧ (∀ ju : String, ju ≠ "" →
        (net.onlineMeetings (escape_odata_string ju)).status = 200 →
        (net.onlineMeetings (escape_odata_string ju)).value = [] →
        fetch_attendance net (some ju) = none)
    ∧ (∀ (ju : String) (m : MeetingRes) (ms : List MeetingRes), ju ≠ "" →
        (net.onlineMeetings (escape_odata_string ju)).status = 200 →
        (net.onlineMeetings (escape_odata_string ju)).value = m :: ms →
        m.id = none →
        fetch_attendance net (some ju) = none)
    ∧ (∀ (ju mid : String) (m : MeetingRes) (ms : List MeetingRes), ju ≠ "" →
        (net.onlineMeetings (escape_odata_string ju)).status = 200 →
        (net.onlineMeetings (escape_odata_string ju)).value = m :: ms →
        m.id = some mid → mid ≠ "" →
        (net.attendanceReports mid).status ≠ 200 →
        fetch_attendance net (some ju) = none)
    ∧ (∀ (ju mid : String) (m : MeetingRes) (ms : List MeetingRes), ju ≠ "" →
        (net.onlineMeetings (escape_odata_string ju)).status = 200 →
        (net.onlineMeetings (escape_odata_string ju)).value = m :: ms →
        m.id = some mid → mid ≠ "" →
        (net.attendanceReports mid).status = 200 →
        (net.attendanceReports mid).value = [] →
        fetch_attendance net (some ju) = none)
    ∧ (∀ (ju mid rid : String) (m : MeetingRes) (ms : List MeetingRes)
        (rep : AttReport), ju ≠ "" →
        (net.onlineMeetings (escape_odata_string ju)).status = 200 →
        (net.onlineMeetings (escape_odata_string ju)).value = m :: ms →
        m.id = some mid → mid ≠ "" →
        (net.attendanceReports mid).status = 200 →
        (net.attendanceReports mid).value ≠ [] →
        (sortReports (net.attendanceReports mid).value).getLast? = some rep →
        rep.id = some rid → rid ≠ "" →
        (net.attendanceRecords mid rid).status ≠ 200 →
        fetch_attendance net (some ju) = none) := by
  refine ⟨rfl, rfl, ?_, ?_, ?_, ?_, ?_, ?_⟩
  · intro ju hju hst
    rw [fetch_attendance_some, if_neg hju, fa_meeting_bad_status net ju hst]
  · intro ju hju hst hval
    rw [fetch_attendance_some, if_neg hju,
      fa_meeting_no_result net ju hst hval]
  · intro ju m ms hju hst hval hid
    rw [fetch_attendance_some, if_neg hju,
      fa_meeting_cons net ju m ms hst hval, hid]
  · intro ju mid m ms hju hst hval hid hmid hrst
    rw [fetch_attendance_some, if_neg hju,
      fa_meeting_cons net ju m ms hst hval, hid]
    show (if mid = "" then none else fa_report net mid) = none
    rw [if_neg hmid, fa_report_bad_status net mid hrst]
  · intro ju mid m ms hju hst hval hid hmid hrst hrval
    rw [fetch_attendance_some, if_neg hju,
      fa_meeting_cons net ju m ms hst hval, hid]
    show (if mid = "" then none else fa_report net mid) = none
    rw [if_neg hmid, fa_report_empty net mid hrst hrval]
  · intro ju mid rid m ms rep hju hst hval hid hmid hrst hrne hlast hrid hridne
      hcst
    rw [fetch_attendance_some, if_neg hju,
      fa_meeting_cons net ju m ms hst hval, hid]
    show (if mid = "" then none else fa_report net mid) = none
    rw [if_neg hmid, fa_report_last net mid rep hrst hrne hlast, hrid]
    show (if rid = "" then none else fa_records net mid rid) = none
    rw [if_neg hridne, fa_records_bad_status net mid rid hcst]

def c8_net : AttendanceNet :=
  ⟨fun _ => ⟨404, []⟩, fun _ => ⟨404, []⟩, fun _ _ => ⟨404, []⟩⟩

/-- C8 witness: a network whose meeting lookup fails yields absent, as does
an absent join URL. -/
theorem c8_witness :
    fetch_attendance c8_net none = none
      ∧ fetch_attendance c8_net (some "j") = none :=
  ⟨(c8_absent_cases c8_net).1,
   (c8_absent_cases c8_net).2.2.1 "j" (by decide) (by decide)⟩

/-- C10: on a fully successful lookup chain, `fetch_attendance` returns the
total number of attendance records — including records with no extractable
email — paired with the deduplicated, lexicographically sorted truthy
emails; hence the email list never outnumbers the count, and it is
invariant under permutation of the records. -/
theorem c10_attendance_count_and_emails (net : AttendanceNet)
    (ju mid rid : String) (m : MeetingRes) (ms : List MeetingRes)
    (rep : AttReport) (hju : ju ≠ "")
    (hst : (net.onlineMeetings (escape_odata_string ju)).status = 200)
    (hval : (net.onlineMeetings (escape_odata_string ju)).value = m :: ms)
    (hid : m.id = some mid) (hmid : mid ≠ "")
    (hrst : (net.attendanceReports mid).status = 200)
    (hrne : (net.attendanceReports mid).value ≠ [])
    (hlast : (sortReports (net.attendanceReports mid).value).getLast?
      = some rep)
    (hrid : rep.id = some rid) (hridne : rid ≠ "")
    (hcst : (net.attendanceRecords mid rid).status = 200) :
    fetch_attendance net (some ju)
        = some ((net.attendanceRecords mid rid).value.length,
            sortedEmails (net.attendanceRecords mid rid).value)
      ∧ (sortedEmails (net.attendanceRecords mid rid).value).length
          ≤ (net.attendanceRecords mid rid).value.length
      ∧ ∀ (recs recs2 : List AttRecord), recs.Perm recs2 →
          sortedEmails recs = sortedEmails recs2 := by
  refine ⟨?_, sortedEmails_length_le _, sortedEmails_perm⟩
  rw [fetch_attendance_some, if_neg hju,
    fa_meeting_cons net ju m ms hst hval, hid]
  show (if mid = "" then none else fa_report net mid) = _
  rw [if_neg hmid, fa_report_last net mid rep hrst hrne hlast, hrid]
  show (if rid = "" then none else fa_records net mid rid) = _
  rw [if_neg hridne, fa_records_ok net mid rid hcst]

def c10_net : AttendanceNet :=
  ⟨fun q => if q = "ju" then ⟨200, [⟨some "mid"⟩]⟩ else ⟨404, []⟩,
   fun m2 => if m2 = "mid" then
      ⟨200, [⟨some "r1", some "2024-01-01"⟩, ⟨some "r2", some "2024-02-02"⟩]⟩
    else ⟨404, []⟩,
   fun m2 r => if m2 = "mid" && r = "r2" then
      ⟨200, [⟨some ⟨some ⟨some "b@x.com"⟩⟩⟩, ⟨none⟩,
        ⟨some ⟨some ⟨some "a@x.com"⟩⟩⟩, ⟨some ⟨some ⟨some "b@x.com"⟩⟩⟩]⟩
    else ⟨404, []⟩⟩

/-- C10 witness: four records, one of them without an email and one a
duplicate; the count is 4 while only two distinct emails are returned, in
sorted order. -/
theorem c10_witness :
    fetch_attendance c10_net (some "ju") = some (4, ["a@x.com", "b@x.com"])
      ∧ 2 < 4 := by
  refine ⟨?_, by decide⟩
  have h := (c10_attendance_count_and_emails c10_net "ju" "mid" "r2"
    ⟨some "mid"⟩ [] ⟨some "r2", some "2024-02-02"⟩ (by decide) rfl rfl rfl
    (by decide) rfl (by decide) (by decide) rfl (by decide) rfl).1
  exact h

/-! ## Claim C9 (the Report Assembler) -/

theorem build_meetings_eq_filterMap (tz : Tz) (att : Bool)
    (net : AttendanceNet) (events : List Event) :
    build_meetings tz att net events = events.filterMap (fun e =>
      match parse_event_time e.startPart tz, parse_event_time e.endPart tz with
      | some s, some en => some (event_meeting att net e s en)
      | some _, none => none
      | none, _ => none) := by
  induction events with
  | nil => rfl
  | cons e rest ih =>
    simp only [build_meetings, List.filterMap_cons]
    cases hs : parse_event_time e.startPart tz with
    | none => simpa using ih
    | some s =>
      cases he : parse_event_time e.endPart tz with
      | none => simpa using ih
      | some en => simpa using ih

theorem build_meetings_length (tz : Tz) (att : Bool) (net : AttendanceNet)
    (events : List Event) :
    (build_meetings tz att net events).length
      = (events.filter (fun e => (parse_event_time e.startPart tz).isSome
          && (parse_event_time e.endPart tz).isSome)).length := by
  induction events with
  | nil => rfl
  | cons e rest ih =>
    simp only [build_meetings, List.filter_cons]
    cases hs : parse_event_time e.startPart tz with
    | none => simpa using ih
    | some s =>
      cases he : parse_event_time e.endPart tz with
      | none => simpa using ih
      | some en => simpa using ih

def c9_e1 : Event :=
  ⟨some "Sync", some ⟨some "2024-03-01T10:00:00Z", none⟩,
   some ⟨some "2024-03-01T10:30:00Z", none⟩, [], none, none⟩

def c9_e2 : Event :=
  ⟨some "Broken", some ⟨none, none⟩,
   some ⟨some "2024-03-02T11:00:00Z", none⟩, [], none, none⟩

def c9_net : AttendanceNet :=
  ⟨fun _ => ⟨404, []⟩, fun _ => ⟨404, []⟩, fun _ _ => ⟨404, []⟩⟩

/-- C9: the Report Assembler retains exactly the events whose start and end
both parse (dropping the rest, in order), and the report's count field
equals the length of the retained meetings sequence; in particular, for two
raw events of which one is fully parsable and the other has a missing start
dateTime, the assembled report has count 1 and contains only the parsable
event. -/
theorem c9_report_drops_unparsable :
    (∀ (mk : String) (events : List Event) (tz : Tz) (att : Bool)
        (net : AttendanceNet),
      (assemble_report mk events tz att net).count
          = (assemble_report mk events tz att net).meetings.length
        ∧ (assemble_report mk events tz att net).meetings.length
            = (events.filter (fun e =>
                (parse_event_time e.startPart tz).isSome
                  && (parse_event_time e.endPart tz).isSome)).length
        ∧ (assemble_report mk events tz att net).meetings
            = events.filterMap (fun e =>
                match parse_event_time e.startPart tz,
                    parse_event_time e.endPart tz with
                | some s, some en => some (event_meeting att net e s en)
                | some _, none => none
                | none, _ => none))
    ∧ assemble_report "2024-03" [c9_e1, c9_e2] Tz.utc false c9_net
        = ⟨"2024-03", 1,
           [⟨"Sync", toInstant ⟨2024, 3, 1, 10, 0, 0⟩ 0 0,
             toInstant ⟨2024, 3, 1, 10, 30, 0⟩ 0 0, "", none, [], []⟩]⟩ := by
  constructor
  · intro mk events tz att net
    exact ⟨rfl, build_meetings_length tz att net events,
      build_meetings_eq_filterMap tz att net events⟩
  · rfl

end MeetingsFetch
